import Mathlib

/-!
Verification of the decision core of the hifi-wifi adaptive network-tuning
daemon (files src/network/tc.rs, src/network/governor.rs, src/network/stats.rs).

Modelling conventions:
* Rust `u32`/`u64` values are modelled as `ℕ`, `i32` as `ℤ`.  None of the
  properties below exercise wrap-around, and the quantities involved (Mbit
  bandwidths, dBm signals, tick counters) stay far below the machine bounds.
* Rust `f64` fields (`smoothed_bandwidth`, `smoothed_pps`, CPU load,
  time deltas) are modelled as `ℚ`.  Every concrete trace proved below uses
  only values (integers, the EMA weight 1/2, halves produced by the median)
  on which binary floating point is exact, so the rational model computes
  exactly the numbers the Rust code computes.
* `f64::round()` rounds half away from zero, and a saturating `as u32`/`as u64`
  cast clamps negatives to zero; on the non-negative values arising here this
  is `round` (round half up) followed by `Int.toNat`, which is `ratRoundToNat`
  below.
* External effects (the `tc`, `ethtool` and power-save invocations) are
  modelled by explicit boolean outcome parameters; `VecDeque` becomes a list
  with push at the back and eviction at the front.
-/

namespace HifiWifi

/-- Model of `f64::round() as u32` / `as u64` on non-negative values:
round half up, then clamp negatives to zero. -/
def ratRoundToNat (x : ℚ) : ℕ := (round x).toNat

/-- State of `TcManager` (src/network/tc.rs, lines 17-38): the CAKE
bandwidth smoother with median window, EMA and directional hysteresis. -/
structure TcManager where
  last_bandwidth : Option ℕ
  smoothed_bandwidth : ℚ
  ema_alpha : ℚ
  change_threshold_mbit : ℕ
  change_threshold_pct : ℚ
  sample_window : List ℕ
  window_size : ℕ
  stable_ticks : ℕ
  hysteresis_ticks : ℕ
  pending_bandwidth : Option ℕ

/-- `TcManager::new` (tc.rs, lines 41-54). -/
def TcManager.new (ema_alpha : ℚ) (threshold_mbit : ℕ) (threshold_pct : ℚ) : TcManager :=
  { last_bandwidth := none
    smoothed_bandwidth := 0
    ema_alpha := ema_alpha
    change_threshold_mbit := threshold_mbit
    change_threshold_pct := threshold_pct
    sample_window := []
    window_size := 5
    stable_ticks := 0
    hysteresis_ticks := 3
    pending_bandwidth := none }

/-- `TcManager::default` (tc.rs, lines 261-266): alpha 0.1, 25 Mbit, 20 %. -/
def TcManager.default : TcManager := TcManager.new (1/10) 25 (1/5)

/-- `TcManager::median` (tc.rs, lines 57-69): sort the window; for an even
length (> 1) take the two middle values, add and divide by two with `u32`
integer division; for an odd length take the middle value.  Indexing is via
`getD`, always in bounds for the nonempty windows this is called on. -/
def TcManager.median (tc : TcManager) : Option ℕ :=
  match tc.sample_window with
  | [] => none
  | _ :: _ =>
    let sorted := tc.sample_window.insertionSort (· ≤ ·)
    let mid := sorted.length / 2
    if sorted.length % 2 = 0 ∧ 1 < sorted.length then
      some ((sorted.getD (mid - 1) 0 + sorted.getD mid 0) / 2)
    else
      some (sorted.getD mid 0)

/-- Stage 5 of `TcManager::update_bandwidth` (tc.rs, lines 123-159):
directional hysteresis on the proposed target, then fire once the stability
count reaches `hysteresis_ticks`. -/
def TcManager.hysteresisAdvance (tc2 : TcManager) (target_mbit : ℕ) :
    Bool × TcManager :=
  let tc3 : TcManager :=
    match tc2.pending_bandwidth with
    | some pending =>
      let last : ℤ := (tc2.last_bandwidth.getD 0 : ℕ)
      let pending_vs_last : ℤ := (pending : ℤ) - last
      let target_vs_last : ℤ := (target_mbit : ℤ) - last
      -- Reset if direction reversed (one wants up, the other down).
      if (0 < pending_vs_last ∧ target_vs_last < 0) ∨
         (pending_vs_last < 0 ∧ 0 < target_vs_last) then
        { tc2 with pending_bandwidth := some target_mbit, stable_ticks := 1 }
      else
        { tc2 with pending_bandwidth := some target_mbit,
                   stable_ticks := tc2.stable_ticks + 1 }
    | none =>
      -- First consideration.
      { tc2 with pending_bandwidth := some target_mbit, stable_ticks := 1 }
  if tc3.hysteresis_ticks ≤ tc3.stable_ticks then
    (true, { tc3 with stable_ticks := 0, pending_bandwidth := none })
  else (false, tc3)

/-- `TcManager::update_bandwidth` (tc.rs, lines 73-160).  Returns the `bool`
the Rust method returns, paired with the mutated state. -/
def TcManager.update_bandwidth (tc : TcManager) (current_speed_mbit : ℕ) :
    Bool × TcManager :=
  if current_speed_mbit = 0 then (false, tc)
  else
    -- Stage 1: add to the rolling window, evicting the oldest on overflow.
    let pushed := tc.sample_window ++ [current_speed_mbit]
    let window := if tc.window_size < pushed.length then pushed.tail else pushed
    let tc1 : TcManager := { tc with sample_window := window }
    -- Need at least 3 samples before making decisions.
    if tc1.sample_window.length < 3 then (false, tc1)
    else
      -- Stage 2: median of the window.
      match tc1.median with
      | none => (false, tc1)
      | some median_mbit =>
        -- Stage 3: EMA on top of the median, seeded by the first median.
        let smoothed : ℚ :=
          if tc1.smoothed_bandwidth = 0 then (median_mbit : ℚ)
          else (median_mbit : ℚ) * tc1.ema_alpha +
               tc1.smoothed_bandwidth * (1 - tc1.ema_alpha)
        let tc2 : TcManager := { tc1 with smoothed_bandwidth := smoothed }
        let target_mbit := ratRoundToNat smoothed
        -- Stage 4: significant-change check against the last committed value
        -- (`should_consider`); with no prior committed value, always consider.
        match tc2.last_bandwidth with
        | none => tc2.hysteresisAdvance target_mbit
        | some last =>
          let abs_diff := ((target_mbit : ℤ) - (last : ℤ)).natAbs
          if tc2.change_threshold_mbit ≤ abs_diff ∨
             tc2.change_threshold_pct ≤ (abs_diff : ℚ) / (last : ℚ) then
            tc2.hysteresisAdvance target_mbit
          else
            (false, { tc2 with stable_ticks := 0, pending_bandwidth := none })

/-- Run `update_bandwidth` over a list of samples, collecting the returned
booleans (mirrors the successive calls in tc.rs's tests). -/
def runUpdates (tc : TcManager) : List ℕ → List Bool × TcManager
  | [] => ([], tc)
  | v :: vs =>
    let r := tc.update_bandwidth v
    let rest := runUpdates r.2 vs
    (r.1 :: rest.1, rest.2)

/-- The smoother of tc.rs's tests: alpha 0.5, thresholds 25 Mbit / 20 %. -/
def tcTest : TcManager := TcManager.new (1/2) 25 (1/5)

/-- State after warming `tcTest` with five samples of 100. -/
def tcWarm : TcManager := (runUpdates tcTest [100, 100, 100, 100, 100]).2

/-- `tcWarm` after `set_last_applied(100)` (tc.rs, lines 228-230). -/
def tcCommitted : TcManager := { tcWarm with last_bandwidth := some 100 }

/-! Intermediate states of the two concrete smoother traces. -/

def tcS1 : TcManager := { tcTest with sample_window := [100] }

def tcS2 : TcManager := { tcTest with sample_window := [100, 100] }

def tcS3 : TcManager :=
  { tcTest with sample_window := [100, 100, 100], smoothed_bandwidth := 100,
                pending_bandwidth := some 100, stable_ticks := 1 }

def tcS4 : TcManager :=
  { tcTest with sample_window := [100, 100, 100, 100], smoothed_bandwidth := 100,
                pending_bandwidth := some 100, stable_ticks := 2 }

def tcS5 : TcManager :=
  { tcTest with sample_window := [100, 100, 100, 100, 100],
                smoothed_bandwidth := 100 }

def tcC0 : TcManager := { tcS5 with last_bandwidth := some 100 }

def tcA1 : TcManager := { tcC0 with sample_window := [100, 100, 100, 100, 50] }

def tcA2 : TcManager := { tcC0 with sample_window := [100, 100, 100, 50, 150] }

def tcA3 : TcManager := { tcC0 with sample_window := [100, 100, 50, 150, 50] }

def tcA4 : TcManager := { tcC0 with sample_window := [100, 50, 150, 50, 150] }

theorem step1 : tcTest.update_bandwidth 100 = (false, tcS1) := by
  norm_num [TcManager.update_bandwidth, tcTest, TcManager.new, tcS1]

theorem step2 : tcS1.update_bandwidth 100 = (false, tcS2) := by
  norm_num [TcManager.update_bandwidth, tcTest, TcManager.new, tcS1, tcS2]

theorem step3 : tcS2.update_bandwidth 100 = (false, tcS3) := by
  norm_num [TcManager.update_bandwidth, TcManager.hysteresisAdvance,
    TcManager.median, tcTest, TcManager.new, tcS2, tcS3, ratRoundToNat,
    round_eq, List.insertionSort, List.orderedInsert, List.getD, Int.toNat_ofNat]
  rfl

theorem step4 : tcS3.update_bandwidth 100 = (false, tcS4) := by
  norm_num [TcManager.update_bandwidth, TcManager.hysteresisAdvance,
    TcManager.median, tcTest, TcManager.new, tcS3, tcS4, ratRoundToNat,
    round_eq, List.insertionSort, List.orderedInsert, List.getD, Int.toNat_ofNat]
  rfl

theorem step5 : tcS4.update_bandwidth 100 = (true, tcS5) := by
  norm_num [TcManager.update_bandwidth, TcManager.hysteresisAdvance,
    TcManager.median, tcTest, TcManager.new, tcS4, tcS5, ratRoundToNat,
    round_eq, List.insertionSort, List.orderedInsert, List.getD, Int.toNat_ofNat]

theorem stepA1 : tcC0.update_bandwidth 50 = (false, tcA1) := by
  norm_num [TcManager.update_bandwidth, TcManager.hysteresisAdvance,
    TcManager.median, tcTest, TcManager.new, tcS5, tcC0, tcA1, ratRoundToNat,
    round_eq, List.insertionSort, List.orderedInsert, List.getD, Int.toNat_ofNat]

theorem stepA2 : tcA1.update_bandwidth 150 = (false, tcA2) := by
  norm_num [TcManager.update_bandwidth, TcManager.hysteresisAdvance,
    TcManager.median, tcTest, TcManager.new, tcS5, tcC0, tcA1, tcA2, ratRoundToNat,
    round_eq, List.insertionSort, List.orderedInsert, List.getD, Int.toNat_ofNat]

theorem stepA3 : tcA2.update_bandwidth 50 = (false, tcA3) := by
  norm_num [TcManager.update_bandwidth, TcManager.hysteresisAdvance,
    TcManager.median, tcTest, TcManager.new, tcS5, tcC0, tcA2, tcA3, ratRoundToNat,
    round_eq, List.insertionSort, List.orderedInsert, List.getD, Int.toNat_ofNat]

theorem stepA4 : tcA3.update_bandwidth 150 = (false, tcA4) := by
  norm_num [TcManager.update_bandwidth, TcManager.hysteresisAdvance,
    TcManager.median, tcTest, TcManager.new, tcS5, tcC0, tcA3, tcA4, ratRoundToNat,
    round_eq, List.insertionSort, List.orderedInsert, List.getD, Int.toNat_ofNat]

theorem tcCommitted_eq : tcCommitted = tcC0 := by
  simp [tcCommitted, tcWarm, runUpdates, step1, step2, step3, step4, step5, tcC0]

/-- Claim C4: for a freshly constructed smoother with EMA alpha 0.5 (default
thresholds 25 Mbit / 20 %, hysteresis 3 ticks), five consecutive calls
`update(100)` return false, false, false, false, true — exactly one `true`,
on the 5th call. -/
theorem C4_five_samples_fire_on_fifth :
    (runUpdates tcTest [100, 100, 100, 100, 100]).1 =
      [false, false, false, false, true] := by
  simp [runUpdates, step1, step2, step3, step4, step5]

/-- Claim C3: starting from a smoother warmed up with samples of 100 and a
committed value of 100, the four calls update(50), update(150), update(50),
update(150) each return false — no bandwidth change fires under alternating
proposals. -/
theorem C3_alternating_proposals_never_fire :
    (runUpdates tcCommitted [50, 150, 50, 150]).1 =
      [false, false, false, false] := by
  rw [tcCommitted_eq]
  simp [runUpdates, stepA1, stepA2, stepA3, stepA4]

/-- The bandwidth placed into the `tc qdisc replace … bandwidth <X>mbit`
command by `TcManager::apply_cake` (tc.rs, line 165):
`self.smoothed_bandwidth.round().max(1.0) as u32`, recomputed from the
smoother state. -/
def TcManager.cake_command_bandwidth (tc : TcManager) : ℕ :=
  (max (round tc.smoothed_bandwidth) 1).toNat

/-- `TcManager::apply_cake` (tc.rs, lines 164-204).  The two external `tc`
invocations are modelled by their success bits: `primary_ok` for the
feature-rich profile, `fallback_ok` for the minimal `besteffort nat` profile
(run only when the primary fails; a spawn failure and a non-zero exit are
collapsed into `false`).  `last_bandwidth` is committed only on success
(line 200 is reached only when neither command path bailed out). -/
def TcManager.apply_cake (tc : TcManager) (_bandwidth_kbit : ℕ)
    (primary_ok fallback_ok : Bool) : Except Unit Unit × TcManager :=
  let bandwidth_mbit := tc.cake_command_bandwidth
  if primary_ok || fallback_ok then
    (Except.ok (), { tc with last_bandwidth := some bandwidth_mbit })
  else
    (Except.error (), tc)

/-- Claim C10: `apply_cake` ignores its bandwidth argument — the bandwidth
passed to the actuation command, and on success recorded as the committed
last-applied value, is round(smoothed_bandwidth) clamped below at 1 Mbit,
recomputed from the smoother's internal state rather than taken from the
value the orchestrator passes in. -/
theorem C10_apply_cake_ignores_argument :
    (∀ (tc : TcManager) (kbit kbit' : ℕ) (p f : Bool),
       tc.apply_cake kbit p f = tc.apply_cake kbit' p f) ∧
    (∀ tc : TcManager,
       tc.cake_command_bandwidth = (max (round tc.smoothed_bandwidth) 1).toNat ∧
       1 ≤ tc.cake_command_bandwidth) ∧
    (∀ (tc : TcManager) (kbit : ℕ) (p f : Bool), p || f = true →
       ((tc.apply_cake kbit p f).2).last_bandwidth =
         some tc.cake_command_bandwidth) := by
  refine ⟨fun tc k k' p f => rfl, fun tc => ⟨rfl, ?_⟩, fun tc k p f h => ?_⟩
  · exact Int.toNat_le_toNat (le_max_right (round tc.smoothed_bandwidth) 1)
  · have h' : p = true ∨ f = true := by simpa using h
    rcases h' with h1 | h1 <;> subst h1 <;> simp [TcManager.apply_cake]

/-- Witness for C10 at a concrete smoother and a successful primary command. -/
theorem C10_witness :
    ((TcManager.new (1/2) 25 (1/5)).apply_cake 7 true false).2.last_bandwidth =
      some (TcManager.new (1/2) 25 (1/5)).cake_command_bandwidth :=
  C10_apply_cake_ignores_argument.2.2 _ 7 true false rfl

/-- The coalescing hysteresis-gate fields of `InterfaceState`
(governor.rs, lines 36-38). -/
structure CoalescingGate where
  coalescing_enabled : Bool
  pending_coalescing : Option Bool
  coalescing_stable_ticks : ℕ

/-- The per-tick coalescing gate update (governor.rs, lines 183-210).
The ethtool invocation's outcome (`ethtool_ok`) is discarded by the source:
the call site is `let _ = EthtoolManager::enable_coalescing(..)` and the
callee itself ignores the command status (tc.rs, lines 239-258), so the
applied flag commits on firing no matter what. -/
def coalescingGateStep (g : CoalescingGate) (should_coalesce _ethtool_ok : Bool) :
    CoalescingGate :=
  if should_coalesce ≠ g.coalescing_enabled then
    let pending := if g.pending_coalescing = some should_coalesce then
      g.pending_coalescing else some should_coalesce
    let stable := if g.pending_coalescing = some should_coalesce then
      g.coalescing_stable_ticks + 1 else 1
    if 2 ≤ stable then
      { coalescing_enabled := should_coalesce, pending_coalescing := none,
        coalescing_stable_ticks := 0 }
    else
      { g with pending_coalescing := pending, coalescing_stable_ticks := stable }
  else
    { g with pending_coalescing := none, coalescing_stable_ticks := 0 }

/-- The power-save hysteresis-gate fields of `InterfaceState`
(governor.rs, lines 39-41). -/
structure PowerSaveGate where
  power_save_enabled : Option Bool
  pending_power_save : Option Bool
  power_save_stable_ticks : ℕ

/-- The per-tick power-save gate update (governor.rs, lines 221-252).
`iface_found` models whether the WiFi manager lists the interface,
`toggle_ok` the outcome of the enable/disable power-save call; the applied
state (`power_save_enabled`) is committed only inside `if let Ok(_) = …`. -/
def powerSaveGateStep (g : PowerSaveGate) (should_enable iface_found toggle_ok : Bool) :
    PowerSaveGate :=
  if g.power_save_enabled ≠ some should_enable then
    let pending := if g.pending_power_save = some should_enable then
      g.pending_power_save else some should_enable
    let stable := if g.pending_power_save = some should_enable then
      g.power_save_stable_ticks + 1 else 1
    if 3 ≤ stable then
      let enabled := if iface_found && toggle_ok then some should_enable
        else g.power_save_enabled
      { power_save_enabled := enabled, pending_power_save := none,
        power_save_stable_ticks := 0 }
    else
      { g with pending_power_save := pending, power_save_stable_ticks := stable }
  else
    { g with pending_power_save := none, power_save_stable_ticks := 0 }

/-- Counterexample to claim C2 as stated: the coalescing gate, one stable tick
away from its threshold, fires on desired=true while the ethtool actuation
fails (`ethtool_ok = false`) — yet the applied flag is committed (it flips
from `false` to `true`), not left un-committed as the claim requires. -/
theorem C2_counterexample :
    (coalescingGateStep ⟨false, some true, 1⟩ true false).coalescing_enabled = true ∧
    (⟨false, some true, 1⟩ : CoalescingGate).coalescing_enabled = false ∧
    (coalescingGateStep ⟨false, some true, 1⟩ true false).pending_coalescing = none ∧
    (coalescingGateStep ⟨false, some true, 1⟩ true false).coalescing_stable_ticks = 0 := by
  refine ⟨rfl, rfl, rfl, rfl⟩

/-- Claim C2 (amended): the bandwidth smoother's committed value is left
unchanged when actuation fails and is updated exactly on success, and the
power-save gate's applied state is updated only when the toggle call
succeeds on a listed interface; the coalescing gate, by contrast, commits
its applied flag whenever it fires, regardless of the ethtool outcome. -/
theorem C2_amended_commit_on_success :
    (∀ (tc : TcManager) (kbit : ℕ), (tc.apply_cake kbit false false).2 = tc) ∧
    (∀ (tc : TcManager) (kbit : ℕ) (p f : Bool), p || f = true →
       ((tc.apply_cake kbit p f).2).last_bandwidth =
         some tc.cake_command_bandwidth) ∧
    (∀ (g : CoalescingGate) (d e : Bool),
       d ≠ g.coalescing_enabled →
       2 ≤ (if g.pending_coalescing = some d then g.coalescing_stable_ticks + 1 else 1) →
       (coalescingGateStep g d e).coalescing_enabled = d) ∧
    (∀ (g : PowerSaveGate) (d found ok : Bool), (found && ok) = false →
       (powerSaveGateStep g d found ok).power_save_enabled = g.power_save_enabled) := by
  refine ⟨fun tc k => rfl, fun tc k p f h => ?_,
    fun g d e h1 h2 => ?_, fun g d found ok h => ?_⟩
  · have h' : p = true ∨ f = true := by simpa using h
    rcases h' with h1 | h1 <;> subst h1 <;> simp [TcManager.apply_cake]
  · simp only [coalescingGateStep, if_pos h1, if_pos h2]
  · unfold powerSaveGateStep
    repeat' split
    all_goals simp_all
    all_goals split <;> rfl

/-- Witness for the amended C2: a successful CAKE actuation commits the
command bandwidth, and a fired power-save gate with a failing toggle leaves
the applied state unchanged. -/
theorem C2_amended_witness :
    ((TcManager.new (1/2) 25 (1/5)).apply_cake 7 false true).2.last_bandwidth =
      some (TcManager.new (1/2) 25 (1/5)).cake_command_bandwidth ∧
    (powerSaveGateStep ⟨none, some true, 2⟩ true true false).power_save_enabled = none :=
  ⟨C2_amended_commit_on_success.2.1 _ 7 false true rfl,
   C2_amended_commit_on_success.2.2.2 ⟨none, some true, 2⟩ true true false rfl⟩

/-- The coalescing policy computed per tick (governor.rs, lines 174-180):
coalesce unless in game mode with CPU not under pressure. -/
def should_coalesce (in_game high_cpu : Bool) : Bool :=
  if in_game && high_cpu then true
  else if in_game then false
  else true

/-- `high_cpu = cpu_load > threshold` (governor.rs, line 173). -/
def highCpu (cpu_load cpu_coalescing_threshold : ℚ) : Bool :=
  decide (cpu_coalescing_threshold < cpu_load)

/-- Claim C7: the desired coalescing value equals NOT (in_game AND NOT
high_cpu) where high_cpu means cpu_load > threshold; it is false exactly for
(in_game = true, high_cpu = false) and true in the other three combinations. -/
theorem C7_coalescing_policy :
    (∀ (in_game : Bool) (cpu_load threshold : ℚ),
       should_coalesce in_game (highCpu cpu_load threshold)
         = !(in_game && !(highCpu cpu_load threshold))) ∧
    should_coalesce true false = false ∧
    should_coalesce true true = true ∧
    should_coalesce false false = true ∧
    should_coalesce false true = true := by
  refine ⟨fun g load thr => ?_, rfl, rfl, rfl, rfl⟩
  cases g <;> cases hc : highCpu load thr <;> simp [should_coalesce, hc]

/-- Game-mode deadline update (governor.rs, lines 136-148): when game mode is
enabled and the smoothed PPS exceeds the threshold, set the deadline to
`now + cooldown`; otherwise leave it untouched.  Time is modelled by `ℚ`
(monotone `Instant`s). -/
def gameModeStep (game_mode_enabled : Bool) (game_mode_until : Option ℚ)
    (pps game_mode_pps_threshold : ℕ) (now cooldown_secs : ℚ) : Option ℚ :=
  if game_mode_enabled && decide (game_mode_pps_threshold < pps) then
    some (now + cooldown_secs)
  else game_mode_until

/-- "In game mode" check (governor.rs, lines 169-171):
`game_mode_until.map(|until| now < until).unwrap_or(false)`. -/
def inGame (game_mode_until : Option ℚ) (now : ℚ) : Bool :=
  match game_mode_until with
  | some until_t => decide (now < until_t)
  | none => false

/-- Claim C9: the game-mode deadline is only ever set to `now + cooldown`
when PPS exceeds the threshold, is never shortened or cleared by a low-PPS
reading (so under monotone time it is non-decreasing), and the interface is
in game mode exactly when the current time is before the deadline. -/
theorem C9_game_mode_deadline :
    ∀ (enabled : Bool) (deadline : Option ℚ) (pps thr : ℕ) (now cooldown : ℚ),
    (pps ≤ thr → gameModeStep enabled deadline pps thr now cooldown = deadline) ∧
    (enabled = false → gameModeStep enabled deadline pps thr now cooldown = deadline) ∧
    (gameModeStep enabled deadline pps thr now cooldown ≠ deadline →
       enabled = true ∧ thr < pps ∧
       gameModeStep enabled deadline pps thr now cooldown = some (now + cooldown)) ∧
    (∀ t, deadline = some t →
       gameModeStep enabled deadline pps thr now cooldown ≠ none) ∧
    (∀ t t', deadline = some t → t ≤ now + cooldown →
       gameModeStep enabled deadline pps thr now cooldown = some t' → t ≤ t') ∧
    (inGame deadline now = true → ∃ t, deadline = some t ∧ now < t) ∧
    (∀ t, deadline = some t → now < t → inGame deadline now = true) := by
  intro enabled deadline pps thr now cooldown
  unfold gameModeStep
  by_cases hc : (enabled && decide (thr < pps)) = true
  · have hc' : enabled = true ∧ thr < pps := by simpa using hc
    refine ⟨fun h => absurd hc'.2 (not_lt.mpr h), ?_, fun _ => ?_, ?_, ?_, ?_, ?_⟩
    · intro h; rw [h] at hc'; simp at hc'
    · exact ⟨hc'.1, hc'.2, by rw [if_pos hc]⟩
    · intro t ht; rw [if_pos hc]; simp
    · intro t t' ht hle heq
      rw [if_pos hc] at heq
      injection heq with h
      exact h ▸ hle
    · intro h
      cases deadline with
      | none => simp [inGame] at h
      | some t => exact ⟨t, rfl, of_decide_eq_true h⟩
    · intro t ht hlt; subst ht; exact decide_eq_true hlt
  · refine ⟨fun _ => if_neg hc, fun _ => if_neg hc, fun h => absurd (if_neg hc) h,
      ?_, ?_, ?_, ?_⟩
    · intro t ht; rw [if_neg hc, ht]; simp
    · intro t t' ht hle heq
      rw [if_neg hc, ht] at heq
      injection heq with h
      exact h ▸ le_refl t
    · intro h
      cases deadline with
      | none => simp [inGame] at h
      | some t => exact ⟨t, rfl, of_decide_eq_true h⟩
    · intro t ht hlt; subst ht; exact decide_eq_true hlt

/-- Witness for C9: a set deadline 5 is extended to 6 = 4 + 2 (not shortened)
by a high-PPS tick at time 4, and time 4 is in game mode under deadline 5. -/
theorem C9_witness :
    (5 : ℚ) ≤ 6 ∧ inGame (some 5) 4 = true := by
  have h := C9_game_mode_deadline true (some 5) 10 3 4 2
  refine ⟨h.2.2.2.2.1 5 6 rfl (by norm_num) ?_, h.2.2.2.2.2.2 5 rfl (by norm_num)⟩
  norm_num [gameModeStep]

/-- `NetStats` (stats.rs, lines 12-16). -/
structure NetStats where
  rx_packets : ℕ
  tx_packets : ℕ

/-- `NetStats::total_packets` (stats.rs, lines 38-40). -/
def NetStats.total_packets (s : NetStats) : ℕ := s.rx_packets + s.tx_packets

/-- `PpsMonitor` (stats.rs, lines 45-53). -/
structure PpsMonitor where
  last_stats : Option NetStats
  last_sample_time : Option ℚ
  current_pps : ℕ
  smoothed_pps : ℚ
  ema_alpha : ℚ

/-- `PpsMonitor::new` (stats.rs, lines 56-64): alpha 0.3. -/
def PpsMonitor.new : PpsMonitor :=
  { last_stats := none
    last_sample_time := none
    current_pps := 0
    smoothed_pps := 0
    ema_alpha := 3/10 }

/-- `PpsMonitor::sample` (stats.rs, lines 69-99).  The sysfs read is an
external input (`read_result`); `now` is the sampled instant.
`u64::saturating_sub` is ℕ truncated subtraction.  Returns the rounded
smoothed PPS together with the mutated state. -/
def PpsMonitor.sample (m : PpsMonitor) (read_result : Option NetStats) (now : ℚ) :
    ℕ × PpsMonitor :=
  match read_result with
  | none => (ratRoundToNat m.smoothed_pps, m)
  | some stats =>
    let m1 : PpsMonitor :=
      match m.last_stats, m.last_sample_time with
      | some last_stats, some last_time =>
        let time_delta := now - last_time
        if 0 < time_delta then
          let packet_delta := stats.total_packets - last_stats.total_packets
          let current_pps := ratRoundToNat ((packet_delta : ℚ) / time_delta)
          let smoothed :=
            if m.smoothed_pps = 0 then (current_pps : ℚ)
            else (current_pps : ℚ) * m.ema_alpha +
                 m.smoothed_pps * (1 - m.ema_alpha)
          { m with current_pps := current_pps, smoothed_pps := smoothed }
        else m
      | _, _ => m
    let m2 : PpsMonitor :=
      { m1 with last_stats := some stats, last_sample_time := some now }
    (ratRoundToNat m2.smoothed_pps, m2)

/-- Claim C8: when the current cumulative packet total is smaller than the
previously stored total (counter reset), the packet delta is clamped to zero
by the saturating subtraction, so the computed raw rate (`current_pps`)
is 0 — never negative, never an underflow spike. -/
theorem C8_counter_reset_clamps (m : PpsMonitor) (stats ls : NetStats) (t0 now : ℚ)
    (h1 : m.last_stats = some ls) (h2 : m.last_sample_time = some t0)
    (h3 : 0 < now - t0) (h4 : stats.total_packets < ls.total_packets) :
    stats.total_packets - ls.total_packets = 0 ∧
    ((m.sample (some stats) now).2).current_pps = 0 := by
  have hz : stats.total_packets - ls.total_packets = 0 :=
    Nat.sub_eq_zero_of_le h4.le
  refine ⟨hz, ?_⟩
  simp only [PpsMonitor.sample, h1, h2, if_pos h3, hz]
  norm_num [ratRoundToNat, round_eq]

/-- Monitor state for the C8 witness: previous totals 15 + 5 = 20 at time 0. -/
def ppsResetMonitor : PpsMonitor :=
  { last_stats := some { rx_packets := 15, tx_packets := 5 }
    last_sample_time := some 0
    current_pps := 7
    smoothed_pps := 4
    ema_alpha := 3/10 }

/-- Witness for C8: a sample whose totals dropped to 2 + 3 = 5 yields a raw
rate of 0. -/
theorem C8_witness :
    ((ppsResetMonitor.sample (some { rx_packets := 2, tx_packets := 3 }) 2).2).current_pps
      = 0 :=
  (C8_counter_reset_clamps ppsResetMonitor { rx_packets := 2, tx_packets := 3 }
    { rx_packets := 15, tx_packets := 5 } 0 2 rfl rfl (by norm_num)
    (by norm_num [NetStats.total_packets])).2

/-- The hysteresis stage never changes the window, and the fired state keeps
the window of the state it fired from. -/
theorem hysteresisAdvance_window (tc2 : TcManager) (t : ℕ) :
    ((tc2.hysteresisAdvance t).2).sample_window = tc2.sample_window := by
  simp only [TcManager.hysteresisAdvance]
  repeat' split
  all_goals rfl

/-- `update_bandwidth` can return `true` only with at least 3 samples in the
rolling window. -/
theorem fires_window_ge_three (tc : TcManager) (v : ℕ)
    (h : (tc.update_bandwidth v).1 = true) :
    3 ≤ ((tc.update_bandwidth v).2).sample_window.length := by
  rcases hr : tc.update_bandwidth v with ⟨b, tc'⟩
  rw [hr] at h
  simp only at h
  subst h
  simp only [TcManager.update_bandwidth] at hr
  repeat' split at hr
  all_goals first
    | exact Bool.noConfusion (congrArg Prod.fst hr)
    | (have hw := congrArg Prod.snd hr
       simp only at hw
       rw [← hw, hysteresisAdvance_window]
       exact Nat.le_of_not_lt (by assumption))

/-- Claim C5: for every freshly constructed smoother and all sample values,
the first two update calls return `false`; and `update` can return `true`
only once the rolling window holds at least 3 samples. -/
theorem C5_warmup (alpha tp : ℚ) (tm : ℕ) (v1 v2 : ℕ) :
    ((TcManager.new alpha tm tp).update_bandwidth v1).1 = false ∧
    ((((TcManager.new alpha tm tp).update_bandwidth v1).2).update_bandwidth v2).1
      = false ∧
    ∀ (tc : TcManager) (v : ℕ), (tc.update_bandwidth v).1 = true →
      3 ≤ ((tc.update_bandwidth v).2).sample_window.length := by
  refine ⟨?_, ?_, fun tc v h => fires_window_ge_three tc v h⟩
  · by_cases h1 : v1 = 0 <;>
      simp [TcManager.update_bandwidth, TcManager.new, h1]
  · by_cases h1 : v1 = 0 <;> by_cases h2 : v2 = 0 <;>
      simp [TcManager.update_bandwidth, TcManager.new, h1, h2]

/-- Witness for C5: a first sample returns `false`, and the firing 5th call
of the C4 trace indeed has a window of at least 3 samples. -/
theorem C5_witness :
    ((TcManager.new (1/2) 25 (1/5)).update_bandwidth 7).1 = false ∧
    3 ≤ ((tcS4.update_bandwidth 100).2).sample_window.length :=
  ⟨(C5_warmup (1/2) (1/5) 25 7 9).1,
   (C5_warmup (1/2) (1/5) 25 7 9).2.2 tcS4 100 (by rw [step5])⟩

/-- A two-sample window exhibiting the truncation in the even-count median. -/
def tcMedianEven : TcManager := { tcTest with sample_window := [1, 2] }

/-- Counterexample to claim C6 as stated: for the two-sample window [1, 2]
the two middle values of the sorted window are 1 and 2, whose average is
3/2; the code's u32 computation `(1 + 2) / 2` yields 1 ≠ 3/2, so the median
is not the average of the two middle values. -/
theorem C6_counterexample :
    tcMedianEven.median = some 1 ∧ ((1 : ℕ) : ℚ) ≠ ((1 : ℚ) + 2) / 2 :=
  ⟨rfl, by norm_num⟩

/-- Claim C6 (amended): for every nonempty window and any sorted
rearrangement `s` of it, the code's median is, for an even sample count, the
u32-truncated average (sum of the two middle values of `s`, divided by 2
with integer division), and for an odd count the middle value of `s`. -/
theorem C6_amended_median (tc : TcManager) (s : List ℕ)
    (hperm : tc.sample_window.Perm s) (hsort : s.Sorted (· ≤ ·))
    (hne : tc.sample_window ≠ []) :
    tc.median = some (if s.length % 2 = 0 then
        (s.getD (s.length / 2 - 1) 0 + s.getD (s.length / 2) 0) / 2
      else s.getD (s.length / 2) 0) := by
  have hs : tc.sample_window.insertionSort (· ≤ ·) = s :=
    List.eq_of_perm_of_sorted ((List.perm_insertionSort _ _).trans hperm)
      (List.sorted_insertionSort _ _) hsort
  have hlen : 1 ≤ s.length := by
    rw [← hperm.length_eq]
    exact List.length_pos.mpr hne
  cases hw : tc.sample_window with
  | nil => exact absurd hw hne
  | cons a l =>
    rw [hw] at hs
    simp only [TcManager.median, hw, hs]
    by_cases hp : s.length % 2 = 0
    · rw [if_pos ⟨hp, by omega⟩, if_pos hp]
    · rw [if_neg (fun hand => hp hand.1), if_neg hp]

/-- Witness for the amended C6 at the even window [4, 1]: the sorted window
is [1, 4] and the median is (1 + 4) / 2 = 2 by integer division. -/
theorem C6_witness :
    ({ tcTest with sample_window := [4, 1] } : TcManager).median = some 2 := by
  have h := C6_amended_median { tcTest with sample_window := [4, 1] } [1, 4]
    (by decide) (by decide) (by decide)
  simpa using h

/-- Wireless band of an access point (the enum lives in src/network/nm.rs,
which is not under src/; only the 5 GHz and 6 GHz cases carry a bias). -/
inductive Band
  | ghz24
  | ghz5
  | ghz6
  deriving DecidableEq

/-- Access-point snapshot {bssid, ssid, signal dBm, band} (spec §3; the
struct lives in src/network/nm.rs, absent from src/). -/
structure AccessPoint where
  bssid : String
  ssid : String
  signal_strength : ℤ
  band : Band
  deriving DecidableEq

/-- Modelled from the spec: `AccessPoint::score` is defined in
src/network/nm.rs, which is not under src/.  Spec §4.4: `score(ap, bias_5ghz,
bias_6ghz) = ap.signal_strength_dbm + (bias_5ghz if ap.band == 5GHz else
bias_6ghz if ap.band == 6GHz else 0)`. -/
def AccessPoint.score (ap : AccessPoint) (bias_5 bias_6 : ℤ) : ℤ :=
  ap.signal_strength +
    (match ap.band with
     | Band.ghz5 => bias_5
     | Band.ghz6 => bias_6
     | Band.ghz24 => 0)

/-- The candidate filter of governor.rs, lines 271-275: same SSID, different
BSSID, signal at or above the configured minimum. -/
def roamFilter (current : AccessPoint) (min_signal : ℤ) (ap : AccessPoint) : Bool :=
  ap.ssid == current.ssid && ap.bssid != current.bssid &&
    decide (ap.signal_strength ≥ min_signal)

/-- One fold step of Rust `Iterator::max_by_key`: the accumulator is replaced
whenever its key is ≤ the next element's key. -/
def maxStep {α : Type} (key : α → ℤ) (acc : Option α) (x : α) : Option α :=
  match acc with
  | none => some x
  | some b => if key b ≤ key x then some x else some b

/-- Rust `Iterator::max_by_key` semantics: among several elements attaining
the maximal key, the LAST one is returned (documented behaviour of
`max_by` / `max_by_key`). -/
def maxByKeyLast {α : Type} (key : α → ℤ) (l : List α) : Option α :=
  l.foldl (maxStep key) none

/-- Candidate selection of governor.rs, lines 270-276: filter the visible
APs, then `max_by_key` on the score. -/
def selectRoamCandidate (current : AccessPoint) (access_points : List AccessPoint)
    (bias_5 bias_6 min_signal : ℤ) : Option AccessPoint :=
  maxByKeyLast (fun ap => ap.score bias_5 bias_6)
    (access_points.filter (roamFilter current min_signal))

/-- The candidate fed into the roam hysteresis (governor.rs, lines 279-314):
the selected best candidate when its score strictly exceeds the current AP's
score; otherwise nothing (the accumulator is cleared). -/
def roamDesired (current : AccessPoint) (access_points : List AccessPoint)
    (bias_5 bias_6 min_signal : ℤ) : Option AccessPoint :=
  match selectRoamCandidate current access_points bias_5 bias_6 min_signal with
  | some best =>
    if current.score bias_5 bias_6 < best.score bias_5 bias_6 then some best
    else none
  | none => none

/-- Folding `maxStep` over elements strictly below the accumulator's key
leaves the accumulator unchanged. -/
theorem foldl_maxStep_lt {α : Type} (key : α → ℤ) (x : α) :
    ∀ (l : List α), (∀ y ∈ l, key y < key x) →
      l.foldl (maxStep key) (some x) = some x := by
  intro l
  induction l with
  | nil => intro _; rfl
  | cons y ys ih =>
    intro h
    have hy : key y < key x := h y (List.mem_cons_self y ys)
    have hstep : maxStep key (some x) y = some x := by
      simp only [maxStep, if_neg (not_le.mpr hy)]
    rw [List.foldl_cons, hstep]
    exact ih fun z hz => h z (List.mem_cons_of_mem y hz)

/-- Folding `maxStep` over elements with keys ≤ `key x` preserves the
invariant that the accumulator is empty or has key ≤ `key x`. -/
theorem foldl_maxStep_le {α : Type} (key : α → ℤ) (x : α) :
    ∀ (l : List α) (acc : Option α),
      (acc = none ∨ ∃ b, acc = some b ∧ key b ≤ key x) →
      (∀ y ∈ l, key y ≤ key x) →
      (l.foldl (maxStep key) acc = none ∨
        ∃ b, l.foldl (maxStep key) acc = some b ∧ key b ≤ key x) := by
  intro l
  induction l with
  | nil => intro acc hacc _; simpa using hacc
  | cons y ys ih =>
    intro acc hacc h
    have hy : key y ≤ key x := h y (List.mem_cons_self y ys)
    rw [List.foldl_cons]
    refine ih (maxStep key acc y) ?_ (fun z hz => h z (List.mem_cons_of_mem y hz))
    rcases hacc with hnone | ⟨b, hb, hble⟩
    · subst hnone
      exact Or.inr ⟨y, rfl, hy⟩
    · subst hb
      by_cases hby : key b ≤ key y
      · exact Or.inr ⟨y, by simp [maxStep, if_pos hby], hy⟩
      · exact Or.inr ⟨b, by simp [maxStep, if_neg hby], hble⟩

/-- `maxByKeyLast` returns the last element attaining the maximal key. -/
theorem maxByKeyLast_last_max {α : Type} (key : α → ℤ) (l₁ : List α) (x : α)
    (l₂ : List α) (h1 : ∀ y ∈ l₁, key y ≤ key x) (h2 : ∀ y ∈ l₂, key y < key x) :
    maxByKeyLast key (l₁ ++ x :: l₂) = some x := by
  unfold maxByKeyLast
  rw [List.foldl_append, List.foldl_cons]
  have hacc := foldl_maxStep_le key x l₁ none (Or.inl rfl) h1
  have hstep : maxStep key (l₁.foldl (maxStep key) none) x = some x := by
    rcases hacc with hnone | ⟨b, hb, hble⟩
    · rw [hnone]; rfl
    · rw [hb]; simp only [maxStep, if_pos hble]
  rw [hstep]
  exact foldl_maxStep_lt key x l₂ h2

def apCurrent : AccessPoint :=
  { bssid := "cc", ssid := "net", signal_strength := -70, band := Band.ghz24 }

def apFirst : AccessPoint :=
  { bssid := "aa", ssid := "net", signal_strength := -50, band := Band.ghz5 }

def apSecond : AccessPoint :=
  { bssid := "bb", ssid := "net", signal_strength := -50, band := Band.ghz5 }

def apThird : AccessPoint :=
  { bssid := "dd", ssid := "net", signal_strength := -60, band := Band.ghz5 }

/-- Counterexample to claim C1 as stated: with two candidates that both pass
the filter and share the identical maximal score -50 (beating the current
AP's -70), the code selects — and feeds into the roam hysteresis — the
SECOND of the enumeration, not the first. -/
theorem C1_counterexample :
    selectRoamCandidate apCurrent [apFirst, apSecond] 0 0 (-100) = some apSecond ∧
    apSecond ≠ apFirst ∧
    roamFilter apCurrent (-100) apFirst = true ∧
    roamFilter apCurrent (-100) apSecond = true ∧
    apFirst.score 0 0 = apSecond.score 0 0 ∧
    roamDesired apCurrent [apFirst, apSecond] 0 0 (-100) = some apSecond := by
  refine ⟨by decide, by decide, by decide, by decide, by decide, by decide⟩

/-- Claim C1 (amended): when two or more access points pass the candidate
filter and share the identical maximal score, the candidate selected — and,
when its score beats the current AP's, fed into the roam hysteresis — is the
one appearing LAST in the input enumeration order among the maximal-scoring
survivors (Rust `max_by_key` keeps the last maximal element). -/
theorem C1_amended_tie_break_last (current x : AccessPoint)
    (access_points l₁ l₂ : List AccessPoint) (bias_5 bias_6 min_signal : ℤ)
    (hsplit : access_points.filter (roamFilter current min_signal) = l₁ ++ x :: l₂)
    (h1 : ∀ y ∈ l₁, y.score bias_5 bias_6 ≤ x.score bias_5 bias_6)
    (h2 : ∀ y ∈ l₂, y.score bias_5 bias_6 < x.score bias_5 bias_6) :
    selectRoamCandidate current access_points bias_5 bias_6 min_signal = some x ∧
    (current.score bias_5 bias_6 < x.score bias_5 bias_6 →
      roamDesired current access_points bias_5 bias_6 min_signal = some x) := by
  have hsel : selectRoamCandidate current access_points bias_5 bias_6 min_signal
      = some x := by
    unfold selectRoamCandidate
    rw [hsplit]
    exact maxByKeyLast_last_max _ l₁ x l₂ h1 h2
  refine ⟨hsel, fun hlt => ?_⟩
  unfold roamDesired
  rw [hsel]
  simp only [if_pos hlt]

/-- Witness for the amended C1: among three survivors with scores
-50, -50, -60, the second (the last of the tied maximal ones) is selected
and fed to the hysteresis. -/
theorem C1_witness :
    selectRoamCandidate apCurrent [apFirst, apSecond, apThird] 0 0 (-100)
      = some apSecond ∧
    roamDesired apCurrent [apFirst, apSecond, apThird] 0 0 (-100)
      = some apSecond := by
  have h := C1_amended_tie_break_last apCurrent apSecond
    [apFirst, apSecond, apThird] [apFirst] [apThird] 0 0 (-100)
    (by decide) (by decide) (by decide)
  exact ⟨h.1, h.2 (by decide)⟩

end HifiWifi
